import Mathlib

/-!
Shallow embedding of the SafeRoute risk-weighted routing engine
(risk_scorer.py, graph_builder.py, route_finder.py, and the grid-variant
graph builder), together with theorems settling the specification claims.

Floating-point arithmetic is modelled over `ℝ`.  The fitted state of the
scikit-learn estimators (scaler statistics, KMeans centroids, logistic
coefficients) is carried explicitly in a `FittedParams` record; the
prediction-time behaviour of those estimators (standardisation, nearest
centroid with first-index tie-break, logistic link) is embedded concretely.
-/

namespace SafeRoute

/-- A feature row: the four feature columns selected by `RiskScorer.fit`
and `RiskScorer.predict_risk_scores`
(`lighting_score, total_incidents, high_severity_count, recent_incidents`). -/
structure FeatureRow where
  lighting_score : ℝ
  total_incidents : ℝ
  high_severity_count : ℝ
  recent_incidents : ℝ

/-- The feature vector of a row, in the column order used by the source. -/
def featVec (r : FeatureRow) : Fin 4 → ℝ :=
  ![r.lighting_score, r.total_incidents, r.high_severity_count, r.recent_incidents]

/-- The fitted state of a `RiskScorer`: per-column scaler statistics,
KMeans centroids (indexed by raw cluster label), the label → ordinal-rank
map built by `fit`, and the logistic-regression coefficients. -/
structure FittedParams where
  n_clusters : ℕ
  scalerMean : Fin 4 → ℝ
  scalerScale : Fin 4 → ℝ
  centers : ℕ → Fin 4 → ℝ
  cluster_to_risk : ℕ → ℕ
  logisticCoef : Fin 4 → ℝ
  logisticIntercept : ℝ

/-- `StandardScaler.transform`: center by the stored mean, divide by the
stored scale. -/
noncomputable def transform (p : FittedParams) (x : Fin 4 → ℝ) : Fin 4 → ℝ :=
  fun i => (x i - p.scalerMean i) / p.scalerScale i

/-- Squared Euclidean distance between two feature vectors. -/
def sqDist (x y : Fin 4 → ℝ) : ℝ :=
  ∑ i, (x i - y i) ^ 2

/-- Index of the least element of a list of reals, earliest index winning
ties (the argmin convention of `KMeans.predict`). -/
noncomputable def argminIdxAux : List ℝ → ℕ → ℕ → ℝ → ℕ
  | [], _, best, _ => best
  | v :: rest, i, best, bv =>
      if v < bv then argminIdxAux rest (i + 1) i v
      else argminIdxAux rest (i + 1) best bv

/-- Index of the least element of a list of reals (0 on the empty list). -/
noncomputable def argminIdx : List ℝ → ℕ
  | [] => 0
  | v :: rest => argminIdxAux rest 1 0 v

/-- `KMeans.predict` on one scaled sample: the label of the nearest
centroid. -/
noncomputable def kmeansPredict (p : FittedParams) (x : Fin 4 → ℝ) : ℕ :=
  argminIdx ((List.range p.n_clusters).map fun c => sqDist x (p.centers c))

/-- The logistic link, so `predict_proba(X)[:, 1]` for a fitted binary
`LogisticRegression` is `sigmoid` of the linear score. -/
noncomputable def sigmoid (z : ℝ) : ℝ :=
  1 / (1 + Real.exp (-z))

/-- `LogisticRegression.predict_proba(X)[:, 1]` on one scaled sample. -/
noncomputable def predictProba (p : FittedParams) (x : Fin 4 → ℝ) : ℝ :=
  sigmoid (∑ i, p.logisticCoef i * x i + p.logisticIntercept)

/-- `np.clip x lo hi`. -/
noncomputable def clip (x lo hi : ℝ) : ℝ :=
  min (max x lo) hi

/-- One row of `RiskScorer.predict_risk_scores`: scale the features, take
the ordinal rank of the predicted cluster, normalise it by `n_clusters - 1`,
fuse `0.6 · rank + 0.4 · probability`, add the lighting penalty
`(1 - lighting) · 0.2`, and clip to `[0, 1]`. -/
noncomputable def predictRiskScore (p : FittedParams) (r : FeatureRow) : ℝ :=
  let x := transform p (featVec r)
  let cluster_risk : ℝ := (p.cluster_to_risk (kmeansPredict p x) : ℝ)
  let risk_prob := predictProba p x
  let normalized_cluster_risk := cluster_risk / ((p.n_clusters : ℝ) - 1)
  let final_score := 0.6 * normalized_cluster_risk + 0.4 * risk_prob
  let lighting_penalty := (1 - r.lighting_score) * 0.2
  clip (final_score + lighting_penalty) 0 1

/-- `RiskScorer.predict_risk_scores` on a feature table, row by row. -/
noncomputable def predict_risk_scores (p : FittedParams) (rows : List FeatureRow) : List ℝ :=
  rows.map (predictRiskScore p)

/-- The mutable state of a `RiskScorer` object: either freshly constructed
(`is_fitted = False`, only `n_clusters` set) or fitted with learned
parameters (`is_fitted = True`). -/
inductive ScorerState where
  | unfitted (n_clusters : ℕ) : ScorerState
  | fitted (params : FittedParams) : ScorerState

/-- The `is_fitted` flag of the scorer state. -/
def scorer_is_fitted : ScorerState → Bool
  | .unfitted _ => false
  | .fitted _ => true

/-- `RiskScorer.fit`: the numeric training loops (KMeans, logistic
regression) are scikit-learn library calls whose learned output we carry
as the `learned` argument; `fit` stores it and unconditionally ends with
`is_fitted = True`. -/
def scorer_fit (learned : FittedParams) : ScorerState :=
  .fitted learned

/-- `RiskScorer.predict_risk_scores` as a method on the scorer state:
raises `ValueError` when `is_fitted` is false, otherwise predicts. -/
noncomputable def scorer_predict_risk_scores (s : ScorerState) (rows : List FeatureRow) :
    Except String (List ℝ) :=
  match s with
  | .unfitted _ => .error "RiskScorer must be fitted before prediction"
  | .fitted p => .ok (predict_risk_scores p rows)

/-- Whether an `Except` result is an error. -/
def isErr {ε α : Type} : Except ε α → Bool
  | .error _ => true
  | .ok _ => false

/-! ## Graph builder (graph_builder.py) -/

/-- A row of the locations table, as consumed by `build_graph`. -/
structure Location where
  location_id : ℕ
  latitude : ℝ
  longitude : ℝ

/-- `np.radians`: degrees to radians. -/
noncomputable def radians (d : ℝ) : ℝ :=
  d * Real.pi / 180

/-- `calculate_distance`: planar approximation, scaling the latitude delta
by 111000 m/degree and the longitude delta additionally by the cosine of the
radian measure of the FIRST point's latitude. -/
noncomputable def calculate_distance (lat1 lon1 lat2 lon2 : ℝ) : ℝ :=
  let lat_diff := (lat2 - lat1) * 111000
  let lon_diff := (lon2 - lon1) * 111000 * Real.cos (radians lat1)
  Real.sqrt (lat_diff ^ 2 + lon_diff ^ 2)

/-- The distance formula as the specification words it: the longitude
correction is scaled by the cosine of the MEAN of the two latitudes. -/
noncomputable def spec_calculate_distance_mean (lat1 lon1 lat2 lon2 : ℝ) : ℝ :=
  Real.sqrt (((lat2 - lat1) * 111000) ^ 2 +
    ((lon2 - lon1) * 111000 * Real.cos (radians ((lat1 + lat2) / 2))) ^ 2)

/-- The amended distance formula: the longitude correction is scaled by the
cosine of the first point's latitude. -/
noncomputable def spec_calculate_distance_first (lat1 lon1 lat2 lon2 : ℝ) : ℝ :=
  Real.sqrt (((lat2 - lat1) * 111000) ^ 2 +
    ((lon2 - lon1) * 111000 * Real.cos (radians lat1)) ^ 2)

/-- Node attributes stored by `build_graph` (`latitude`, `longitude`,
`risk_score`). -/
structure NodeData where
  latitude : ℝ
  longitude : ℝ
  risk_score : ℝ

/-- Edge attributes stored by `build_graph` (`weight`, `distance`, `risk`). -/
structure EdgeData where
  weight : ℝ
  distance : ℝ
  risk : ℝ

/-- The graph produced by `build_graph`: the nodes dictionary (id ↦
attributes, in insertion order) and the undirected edge list
(endpoint ids plus edge attributes). -/
structure Graph where
  nodes : List (ℕ × NodeData)
  edges : List (ℕ × ℕ × EdgeData)

/-- Pair each location row with its positional risk score
(`risk_scores[idx]`), the risk-score array being indexed by row position. -/
def zipRisksAux (risks : ℕ → ℝ) : List Location → ℕ → List (Location × ℝ)
  | [], _ => []
  | loc :: rest, i => (loc, risks i) :: zipRisksAux risks rest (i + 1)

/-- All ordered pairs `(l[i], l[j])` with `i < j`, in the double-loop order
of `build_graph`. -/
def pairsAfter {α : Type} : List α → List (α × α)
  | [] => []
  | x :: rest => (rest.map fun y => (x, y)) ++ pairsAfter rest

open Classical in
/-- `build_graph` (pairwise-distance variant): one node per location row,
and for every pair at `calculate_distance` at most `max_connection_distance`,
an edge with `risk` the mean of the endpoint risks, `weight` =
`distance * (1 + avg_risk * 2)`, and `distance` the computed distance. -/
noncomputable def build_graph (locs : List Location) (risks : ℕ → ℝ)
    (max_connection_distance : ℝ) : Graph :=
  let withRisk := zipRisksAux risks locs 0
  let nodes := withRisk.map fun lr =>
    (lr.1.location_id, NodeData.mk lr.1.latitude lr.1.longitude lr.2)
  let edges := (pairsAfter withRisk).filterMap fun lr2 =>
    let distance := calculate_distance lr2.1.1.latitude lr2.1.1.longitude
      lr2.2.1.latitude lr2.2.1.longitude
    if distance ≤ max_connection_distance then
      let avg_risk := (lr2.1.2 + lr2.2.2) / 2
      let risk_multiplier := 1 + avg_risk * 2
      some (lr2.1.1.location_id, lr2.2.1.location_id,
        EdgeData.mk (distance * risk_multiplier) distance avg_risk)
    else none
  ⟨nodes, edges⟩

/-! ## Grid-variant graph builder (src/graph_builder.py of the prototype) -/

/-- `np.linspace a b n` at index `i` (with endpoint): `a + (b-a)·i/(n-1)`. -/
noncomputable def linspace (a b : ℝ) (n : ℕ) (i : ℕ) : ℝ :=
  a + (b - a) * i / ((n : ℝ) - 1)

/-- The 60×60 lattice of the grid-variant `build_graph`, spanning the
bounding box of the input data (whose coordinate extremes we carry as the
four real parameters). -/
def gridNodes (latlo lathi lonlo lonhi : ℝ) : Set (ℝ × ℝ) :=
  { p | ∃ i : Fin 60, ∃ j : Fin 60,
      p = (linspace latlo lathi 60 i, linspace lonlo lonhi 60 j) }

/-- The edge writes performed by the grid-variant `build_graph`: for every
ordered pair of lattice nodes within the `0.02` coordinate-delta neighbor
threshold in both coordinates, an edge whose weight is
`dist * (1 + risk)` with `dist` the Euclidean coordinate distance and
`risk` the model risk predicted at the FIRST node's coordinates.
`predict_point_risk` (imported from `src.risk_model` but absent from the
repository sources) is abstracted as the function argument `pointRisk`. -/
noncomputable def gridEdgeWrites (latlo lathi lonlo lonhi : ℝ)
    (pointRisk : ℝ → ℝ → ℝ) : Set ((ℝ × ℝ) × (ℝ × ℝ) × ℝ) :=
  { t | t.1 ∈ gridNodes latlo lathi lonlo lonhi ∧
        t.2.1 ∈ gridNodes latlo lathi lonlo lonhi ∧
        |t.1.1 - t.2.1.1| < 0.02 ∧ |t.1.2 - t.2.1.2| < 0.02 ∧
        t.2.2 = Real.sqrt ((t.1.1 - t.2.1.1) ^ 2 + (t.1.2 - t.2.1.2) ^ 2) *
          (1 + pointRisk t.1.1 t.1.2) }

/-! ## Route finder (route_finder.py) -/

/-- Lookup of a node's attribute record in the graph's nodes dictionary. -/
def getNode (G : Graph) (id : ℕ) : Option NodeData :=
  (G.nodes.find? fun p => p.1 = id).map Prod.snd

/-- `node_id in G.nodes`. -/
def hasNode (G : Graph) (id : ℕ) : Bool :=
  (getNode G id).isSome

/-- Undirected edge lookup `G[u][v]` / `G.has_edge(u, v)`. -/
def getEdge (G : Graph) (u v : ℕ) : Option EdgeData :=
  (G.edges.find? fun e => (e.1 = u ∧ e.2.1 = v) ∨ (e.1 = v ∧ e.2.1 = u)).map
    fun e => e.2.2

/-- Two node ids are adjacent when the edge list carries an edge between
them (in either orientation). -/
def adj (G : Graph) (u v : ℕ) : Prop :=
  (getEdge G u v).isSome

/-- `p` is a path of the graph from `s` to `t`: nonempty, starting at `s`,
ending at `t`, with consecutive nodes adjacent. -/
def IsPathBetween (G : Graph) (s t : ℕ) (p : List ℕ) : Prop :=
  p ≠ [] ∧ p.head? = some s ∧ p.getLast? = some t ∧ p.Chain' (adj G)

/-- `s` and `t` lie in the same connected component. -/
def Reachable (G : Graph) (s t : ℕ) : Prop :=
  ∃ p, IsPathBetween G s t p

open Classical in
/-- Modelled from the spec: `networkx.shortest_path` (an external library
call, not part of the repository sources) computes a minimum-total-weight
path with Dijkstra's algorithm and raises `NetworkXNoPath` when none
exists.  We model the outcome shape the claims depend on: `some` path
between the endpoints when one exists, `none` otherwise (the weight key is
kept as a parameter but optimality is not modelled). -/
noncomputable def nx_shortest_path (G : Graph) (_weightKey : EdgeData → ℝ)
    (s t : ℕ) : Option (List ℕ) :=
  if h : Reachable G s t then some (Classical.choose h) else none

/-- `find_safest_route`: validate both endpoint ids, then search by the
`weight` attribute; `NetworkXNoPath` is converted to `None`. -/
noncomputable def find_safest_route (G : Graph) (start_node end_node : ℕ) :
    Except String (Option (List ℕ)) :=
  if ¬ hasNode G start_node then .error "Start node not found in graph"
  else if ¬ hasNode G end_node then .error "End node not found in graph"
  else .ok (nx_shortest_path G EdgeData.weight start_node end_node)

/-- `find_shortest_route`: identical, searching by the `distance`
attribute. -/
noncomputable def find_shortest_route (G : Graph) (start_node end_node : ℕ) :
    Except String (Option (List ℕ)) :=
  if ¬ hasNode G start_node then .error "Start node not found in graph"
  else if ¬ hasNode G end_node then .error "End node not found in graph"
  else .ok (nx_shortest_path G EdgeData.distance start_node end_node)

/-- The route-statistics record returned by `get_route_info`. -/
structure RouteInfo where
  total_distance : ℝ
  total_risk_score : ℝ
  avg_risk_score : ℝ
  num_segments : ℕ

/-- The all-zero statistics record. -/
def zeroRouteInfo : RouteInfo :=
  ⟨0, 0, 0, 0⟩

/-- The `distance` contribution of one consecutive pair: the edge's
`distance` when the graph has the edge, otherwise 0. -/
def segDistance (G : Graph) (uv : ℕ × ℕ) : ℝ :=
  match getEdge G uv.1 uv.2 with
  | some e => e.distance
  | none => 0

/-- The `risk` contribution of one consecutive pair. -/
def segRisk (G : Graph) (uv : ℕ × ℕ) : ℝ :=
  match getEdge G uv.1 uv.2 with
  | some e => e.risk
  | none => 0

/-- `get_route_info`: `None` or a path of fewer than two nodes yields the
all-zero record; otherwise sum the `distance` and `risk` attributes over
the consecutive pairs (a pair without a graph edge contributes 0) and
average the risk over the segment count. -/
noncomputable def get_route_info (G : Graph) (path : Option (List ℕ)) : RouteInfo :=
  match path with
  | none => zeroRouteInfo
  | some p =>
    if p.length < 2 then zeroRouteInfo
    else
      let num_segments := p.length - 1
      let pairs := p.zip p.tail
      let total_distance := (pairs.map (segDistance G)).sum
      let total_risk := (pairs.map (segRisk G)).sum
      let avg_risk := if 0 < num_segments then total_risk / (num_segments : ℝ) else 0
      ⟨total_distance, total_risk, avg_risk, num_segments⟩

/-- `get_route_coordinates`: look `graph.nodes[node_id]` up for each id in
path order with no up-front validation; the first missing id raises
`KeyError`. -/
def get_route_coordinates (G : Graph) : List ℕ → Except String (List (ℝ × ℝ))
  | [] => .ok []
  | id :: rest =>
    match getNode G id with
    | none => .error "KeyError"
    | some nd =>
      match get_route_coordinates G rest with
      | .error e => .error e
      | .ok coords => .ok ((nd.latitude, nd.longitude) :: coords)

/-! ## Shared helper lemmas and concrete instances -/

/-- Clipping to `[0, 1]` lands in `[0, 1]`. -/
theorem clip_unit_mem (x : ℝ) : 0 ≤ clip x 0 1 ∧ clip x 0 1 ≤ 1 := by
  unfold clip
  exact ⟨le_min (le_max_right x 0) zero_le_one, min_le_right _ _⟩

/-- The all-zero feature row. -/
def zeroRow : FeatureRow :=
  ⟨0, 0, 0, 0⟩

/-- A concrete fitted parameter record: three clusters, identity scaler,
all centroids at the origin, identity rank map, zero logistic
coefficients. -/
noncomputable def P0 : FittedParams :=
  ⟨3, fun _ => 0, fun _ => 1, fun _ _ => 0, id, fun _ => 0, 0⟩

/-! ## Claims about the risk scorer -/

/-- C1: every risk score returned by `predict_risk_scores` on a fitted
scorer lies in `[0, 1]`, with one score per input row in input-row
order. -/
theorem predict_risk_scores_unit_interval (p : FittedParams) (rows : List FeatureRow) :
    (predict_risk_scores p rows).length = rows.length ∧
    ∀ (i : ℕ) (hi : i < (predict_risk_scores p rows).length)
      (hr : i < rows.length),
      (predict_risk_scores p rows).get ⟨i, hi⟩ = predictRiskScore p (rows.get ⟨i, hr⟩) ∧
      0 ≤ (predict_risk_scores p rows).get ⟨i, hi⟩ ∧
      (predict_risk_scores p rows).get ⟨i, hi⟩ ≤ 1 := by
  refine ⟨by simp [predict_risk_scores], ?_⟩
  intro i hi hr
  have hget : (predict_risk_scores p rows).get ⟨i, hi⟩ =
      predictRiskScore p (rows.get ⟨i, hr⟩) := by
    simp [predict_risk_scores]
  refine ⟨hget, ?_, ?_⟩
  · rw [hget]; exact (clip_unit_mem _).1
  · rw [hget]; exact (clip_unit_mem _).2

/-- Witness for C1 at a concrete fitted scorer and one concrete row. -/
theorem predict_risk_scores_unit_interval_witness :
    0 ≤ (predict_risk_scores P0 [zeroRow]).get ⟨0, by simp [predict_risk_scores]⟩ ∧
    (predict_risk_scores P0 [zeroRow]).get ⟨0, by simp [predict_risk_scores]⟩ ≤ 1 := by
  have h := (predict_risk_scores_unit_interval P0 [zeroRow]).2 0
    (by simp [predict_risk_scores]) (by simp)
  exact ⟨h.2.1, h.2.2⟩

/-- C6: the predicted risk score is exactly
`clip (0.6·(rank/(K−1)) + 0.4·high_risk_probability + 0.2·(1−lighting), 0, 1)`,
with the rank the fitted ordinal rank of the assigned cluster and the
probability the fitted classifier's high-risk probability. -/
theorem predictRiskScore_fusion_formula (p : FittedParams) (r : FeatureRow) :
    predictRiskScore p r =
      clip (0.6 * ((p.cluster_to_risk (kmeansPredict p (transform p (featVec r))) : ℝ) /
            ((p.n_clusters : ℝ) - 1)) +
          0.4 * predictProba p (transform p (featVec r)) +
          0.2 * (1 - r.lighting_score)) 0 1 := by
  simp only [predictRiskScore]
  congr 1
  ring

/-- C9: prediction on a scorer errors exactly when the scorer is not yet
fitted, and a scorer returned by `fit` never raises the not-fitted
error. -/
theorem scorer_predict_errors_iff_unfitted (s : ScorerState) (rows : List FeatureRow) :
    (isErr (scorer_predict_risk_scores s rows) = true ↔ scorer_is_fitted s = false) ∧
    ∀ (learned : FittedParams) (rows2 : List FeatureRow),
      isErr (scorer_predict_risk_scores (scorer_fit learned) rows2) = false := by
  constructor
  · cases s <;> simp [scorer_predict_risk_scores, scorer_is_fitted, isErr]
  · intro learned rows2
    simp [scorer_fit, scorer_predict_risk_scores, isErr]

/-! ## Claims about the graph builder -/

/-- A location pair drawn from the `i < j` double loop whose distance is
within the threshold yields exactly this edge in the built graph. -/
theorem mem_build_graph_edges (locs : List Location) (risks : ℕ → ℝ) (D : ℝ)
    (lr2 : (Location × ℝ) × (Location × ℝ))
    (h1 : lr2 ∈ pairsAfter (zipRisksAux risks locs 0))
    (h2 : calculate_distance lr2.1.1.latitude lr2.1.1.longitude
      lr2.2.1.latitude lr2.2.1.longitude ≤ D) :
    (lr2.1.1.location_id, lr2.2.1.location_id,
      EdgeData.mk
        (calculate_distance lr2.1.1.latitude lr2.1.1.longitude
            lr2.2.1.latitude lr2.2.1.longitude * (1 + (lr2.1.2 + lr2.2.2) / 2 * 2))
        (calculate_distance lr2.1.1.latitude lr2.1.1.longitude
            lr2.2.1.latitude lr2.2.1.longitude)
        ((lr2.1.2 + lr2.2.2) / 2)) ∈ (build_graph locs risks D).edges := by
  simp only [build_graph]
  exact List.mem_filterMap.mpr ⟨lr2, h1, by rw [if_pos h2]⟩

/-- Distance between a point and itself is zero. -/
theorem calculate_distance_self (lat lon : ℝ) : calculate_distance lat lon lat lon = 0 := by
  simp [calculate_distance]

/-- C3: no edge of a graph built with max-connection-distance `D` has a
`distance` attribute exceeding `D`. -/
theorem build_graph_edge_distance_le (locs : List Location) (risks : ℕ → ℝ)
    (D : ℝ) (e : ℕ × ℕ × EdgeData) (he : e ∈ (build_graph locs risks D).edges) :
    e.2.2.distance ≤ D := by
  simp only [build_graph, List.mem_filterMap] at he
  obtain ⟨lr2, _, hsome⟩ := he
  split at hsome
  · rename_i hle
    cases hsome
    simpa using hle
  · exact absurd hsome (by simp)

/-- First demo location, at the coordinate origin. -/
noncomputable def L1 : Location :=
  ⟨1, 0, 0⟩

/-- Second demo location, also at the coordinate origin. -/
noncomputable def L2 : Location :=
  ⟨2, 0, 0⟩

/-- Witness for C3: the graph on two coincident locations contains their
connecting edge, and its distance is within the threshold. -/
theorem build_graph_edge_distance_le_witness :
    (L1.location_id, L2.location_id,
      EdgeData.mk
        (calculate_distance L1.latitude L1.longitude L2.latitude L2.longitude *
          (1 + ((0 : ℝ) + 0) / 2 * 2))
        (calculate_distance L1.latitude L1.longitude L2.latitude L2.longitude)
        (((0 : ℝ) + 0) / 2)) ∈ (build_graph [L1, L2] (fun _ => 0) 500).edges ∧
    (EdgeData.mk
        (calculate_distance L1.latitude L1.longitude L2.latitude L2.longitude *
          (1 + ((0 : ℝ) + 0) / 2 * 2))
        (calculate_distance L1.latitude L1.longitude L2.latitude L2.longitude)
        (((0 : ℝ) + 0) / 2)).distance ≤ 500 := by
  have hd : calculate_distance L1.latitude L1.longitude L2.latitude L2.longitude = 0 := by
    simp [L1, L2, calculate_distance_self]
  have hmem := mem_build_graph_edges [L1, L2] (fun _ => 0) 500 ((L1, 0), (L2, 0))
    (by simp [pairsAfter, zipRisksAux]) (by rw [hd]; norm_num)
  exact ⟨hmem,
    build_graph_edge_distance_le [L1, L2] (fun _ => 0) 500 _ hmem⟩

/-- C8 counterexample: at latitude pair (0°, 60°) the code's distance
differs from the mean-latitude formula of the spec, and the function is
not symmetric in its endpoints. -/
theorem calculate_distance_mean_cos_counterexample :
    calculate_distance 0 0 60 1 ≠ spec_calculate_distance_mean 0 0 60 1 ∧
    calculate_distance 0 0 60 1 ≠ calculate_distance 60 1 0 0 := by
  have hrad0 : radians 0 = 0 := by simp [radians]
  have hc0 : Real.cos (radians 0) = 1 := by rw [hrad0, Real.cos_zero]
  have hrad30 : radians ((0 + 60) / 2) = Real.pi / 6 := by unfold radians; ring
  have hc30 : Real.cos (radians ((0 + 60) / 2)) = Real.sqrt 3 / 2 := by
    rw [hrad30, Real.cos_pi_div_six]
  have hrad60 : radians 60 = Real.pi / 3 := by unfold radians; ring
  have hc60 : Real.cos (radians 60) = 1 / 2 := by rw [hrad60, Real.cos_pi_div_three]
  have h3 : Real.sqrt 3 ^ 2 = 3 := Real.sq_sqrt (by norm_num)
  constructor
  · have hlt : spec_calculate_distance_mean 0 0 60 1 < calculate_distance 0 0 60 1 := by
      simp only [spec_calculate_distance_mean, calculate_distance, hc30, hc0]
      apply Real.sqrt_lt_sqrt
      · positivity
      · nlinarith [Real.sqrt_nonneg 3]
    exact (ne_of_lt hlt).symm
  · have hlt : calculate_distance 60 1 0 0 < calculate_distance 0 0 60 1 := by
      simp only [calculate_distance, hc60, hc0]
      apply Real.sqrt_lt_sqrt
      · positivity
      · norm_num
    exact (ne_of_lt hlt).symm

/-- C8 amended: `calculate_distance` is the planar approximation with the
longitude correction scaled by the cosine of the FIRST point's latitude,
and it is symmetric when the two latitudes agree. -/
theorem calculate_distance_first_lat_formula (lat1 lon1 lat2 lon2 : ℝ) :
    calculate_distance lat1 lon1 lat2 lon2 =
      spec_calculate_distance_first lat1 lon1 lat2 lon2 ∧
    ∀ (lat lo1 lo2 : ℝ),
      calculate_distance lat lo1 lat lo2 = calculate_distance lat lo2 lat lo1 := by
  constructor
  · simp [calculate_distance, spec_calculate_distance_first]
  · intro lat lo1 lo2
    simp only [calculate_distance]
    congr 1
    ring

/-- The lattice point `(0, 0)` of the demo bounding box. -/
theorem grid_demo_node_zero : ((0 : ℝ), (0 : ℝ)) ∈ gridNodes 0 0.59 0 0.59 := by
  refine ⟨⟨0, by norm_num⟩, ⟨0, by norm_num⟩, ?_⟩
  simp [linspace]

/-- The lattice point `(0.01, 0)` of the demo bounding box. -/
theorem grid_demo_node_one : ((0.01 : ℝ), (0 : ℝ)) ∈ gridNodes 0 0.59 0 0.59 := by
  refine ⟨⟨1, by norm_num⟩, ⟨0, by norm_num⟩, ?_⟩
  simp only [linspace, Prod.mk.injEq]
  norm_num

/-- The grid builder writes the edge between the two neighboring demo
lattice points, with constant predicted risk 1. -/
theorem grid_demo_edge_mem :
    (((0 : ℝ), (0 : ℝ)), ((0.01 : ℝ), (0 : ℝ)),
      Real.sqrt (((0 : ℝ) - 0.01) ^ 2 + ((0 : ℝ) - 0) ^ 2) * (1 + 1)) ∈
      gridEdgeWrites 0 0.59 0 0.59 (fun _ _ => 1) := by
  refine ⟨grid_demo_node_zero, grid_demo_node_one, ?_, ?_, rfl⟩
  · simp only [abs_sub_lt_iff]
    norm_num
  · simp only [abs_sub_lt_iff]
    norm_num

/-- The Euclidean coordinate distance between the two demo lattice
points is `0.01`. -/
theorem grid_demo_edge_dist :
    Real.sqrt (((0 : ℝ) - 0.01) ^ 2 + ((0 : ℝ) - 0) ^ 2) = 0.01 := by
  rw [show (((0 : ℝ) - 0.01) ^ 2 + ((0 : ℝ) - 0) ^ 2) = (0.01 : ℝ) ^ 2 by norm_num]
  exact Real.sqrt_sq (by norm_num)

/-- C2 counterexample: a concrete edge written by the grid-variant
builder whose weight is `distance × (1 + risk)`, not
`distance × (1 + 2 × risk)` — at distance `0.01` and risk `1` the
weight is `0.02`, while the claimed formula gives `0.03`. -/
theorem grid_edge_weight_counterexample :
    (((0 : ℝ), (0 : ℝ)), ((0.01 : ℝ), (0 : ℝ)),
      Real.sqrt (((0 : ℝ) - 0.01) ^ 2 + ((0 : ℝ) - 0) ^ 2) * (1 + 1)) ∈
      gridEdgeWrites 0 0.59 0 0.59 (fun _ _ => 1) ∧
    Real.sqrt (((0 : ℝ) - 0.01) ^ 2 + ((0 : ℝ) - 0) ^ 2) * (1 + 1) ≠
      Real.sqrt (((0 : ℝ) - 0.01) ^ 2 + ((0 : ℝ) - 0) ^ 2) * (1 + 2 * 1) := by
  refine ⟨grid_demo_edge_mem, ?_⟩
  rw [grid_demo_edge_dist]
  norm_num

/-- C2 amended: every pairwise-variant edge has weight
`distance × (1 + 2 × risk)`; every grid-variant edge has weight
`distance × (1 + risk)` with the risk predicted at the edge's first
endpoint; in both variants the weight is at least the distance whenever
the risk is nonnegative. -/
theorem edge_weight_formulas (locs : List Location) (risks : ℕ → ℝ) (D : ℝ)
    (e : ℕ × ℕ × EdgeData) (he : e ∈ (build_graph locs risks D).edges)
    (latlo lathi lonlo lonhi : ℝ) (pointRisk : ℝ → ℝ → ℝ)
    (t : (ℝ × ℝ) × (ℝ × ℝ) × ℝ)
    (ht : t ∈ gridEdgeWrites latlo lathi lonlo lonhi pointRisk) :
    (e.2.2.weight = e.2.2.distance * (1 + 2 * e.2.2.risk) ∧
      (0 ≤ e.2.2.risk → e.2.2.distance ≤ e.2.2.weight)) ∧
    (t.2.2 = Real.sqrt ((t.1.1 - t.2.1.1) ^ 2 + (t.1.2 - t.2.1.2) ^ 2) *
        (1 + pointRisk t.1.1 t.1.2) ∧
      (0 ≤ pointRisk t.1.1 t.1.2 →
        Real.sqrt ((t.1.1 - t.2.1.1) ^ 2 + (t.1.2 - t.2.1.2) ^ 2) ≤ t.2.2)) := by
  constructor
  · simp only [build_graph, List.mem_filterMap] at he
    obtain ⟨lr2, _, hsome⟩ := he
    split at hsome
    · cases hsome
      constructor
      · simp only
        ring
      · intro hr
        simp only at hr ⊢
        have hd : 0 ≤ calculate_distance lr2.1.1.latitude lr2.1.1.longitude
            lr2.2.1.latitude lr2.2.1.longitude := Real.sqrt_nonneg _
        nlinarith
    · exact absurd hsome (by simp)
  · obtain ⟨_, _, _, _, hw⟩ := ht
    refine ⟨hw, fun hr => ?_⟩
    rw [hw]
    have hd : 0 ≤ Real.sqrt ((t.1.1 - t.2.1.1) ^ 2 + (t.1.2 - t.2.1.2) ^ 2) :=
      Real.sqrt_nonneg _
    nlinarith

/-- Witness for the amended C2 at a concrete pairwise graph and a concrete
grid edge. -/
theorem edge_weight_formulas_witness :
    (EdgeData.mk
        (calculate_distance L1.latitude L1.longitude L2.latitude L2.longitude *
          (1 + ((0 : ℝ) + 0) / 2 * 2))
        (calculate_distance L1.latitude L1.longitude L2.latitude L2.longitude)
        (((0 : ℝ) + 0) / 2)).weight =
      (EdgeData.mk
        (calculate_distance L1.latitude L1.longitude L2.latitude L2.longitude *
          (1 + ((0 : ℝ) + 0) / 2 * 2))
        (calculate_distance L1.latitude L1.longitude L2.latitude L2.longitude)
        (((0 : ℝ) + 0) / 2)).distance *
        (1 + 2 * (((0 : ℝ) + 0) / 2)) ∧
    Real.sqrt (((0 : ℝ) - 0.01) ^ 2 + ((0 : ℝ) - 0) ^ 2) ≤
      Real.sqrt (((0 : ℝ) - 0.01) ^ 2 + ((0 : ℝ) - 0) ^ 2) * (1 + 1) := by
  have hmem := mem_build_graph_edges [L1, L2] (fun _ => 0) 500 ((L1, 0), (L2, 0))
    (by simp [pairsAfter, zipRisksAux])
    (by rw [show calculate_distance L1.latitude L1.longitude L2.latitude L2.longitude = 0
          from by simp [L1, L2, calculate_distance_self]]; norm_num)
  have h := edge_weight_formulas [L1, L2] (fun _ => 0) 500 _ hmem
    0 0.59 0 0.59 (fun _ _ => 1) _ grid_demo_edge_mem
  exact ⟨h.1.1, by simpa using h.2.2 (by norm_num)⟩

/-! ## Lighting monotonicity (C7) -/

/-- A well-lit feature row with no incidents. -/
def litRow : FeatureRow :=
  ⟨1, 0, 0, 0⟩

/-- Centroids for which the cluster assignment depends on the lighting
feature: the dark row sits on centroid 0, the lit row on centroid 2. -/
noncomputable def cexCenters : ℕ → Fin 4 → ℝ :=
  fun c => if c = 0 then ![0, 0, 0, 0] else if c = 1 then ![0.5, 10, 0, 0] else ![1, 0, 0, 0]

/-- A fitted parameter record reachable by `fit`: identity scaler,
the centroids above, identity rank map, zero logistic coefficients. -/
noncomputable def Pcex : FittedParams :=
  ⟨3, fun _ => 0, fun _ => 1, cexCenters, id, fun _ => 0, 0⟩

/-- The identity scaler leaves feature vectors unchanged. -/
theorem transform_Pcex (r : FeatureRow) : transform Pcex (featVec r) = featVec r := by
  funext i
  simp [transform, Pcex]

/-- With zero logistic coefficients every row gets high-risk
probability `1/2`. -/
theorem predictProba_Pcex (x : Fin 4 → ℝ) : predictProba Pcex x = 1 / 2 := by
  simp [predictProba, Pcex, sigmoid, Real.exp_zero]
  norm_num

/-- The dark row is assigned to cluster 0. -/
theorem kmeansPredict_Pcex_dark : kmeansPredict Pcex (featVec zeroRow) = 0 := by
  unfold kmeansPredict
  rw [show List.range Pcex.n_clusters = [0, 1, 2] from rfl]
  have hmap : [0, 1, 2].map (fun c => sqDist (featVec zeroRow) (Pcex.centers c)) =
      [0, 100.25, 1] := by
    simp only [List.map_cons, List.map_nil, sqDist, Pcex, cexCenters, featVec, zeroRow,
      Fin.sum_univ_four]
    norm_num [Matrix.cons_val_zero, Matrix.cons_val_one, Matrix.head_cons,
      Matrix.cons_val_two, Matrix.cons_val_three, Matrix.vecTail, Matrix.vecHead]
  rw [hmap]
  norm_num [argminIdx, argminIdxAux]

/-- The lit row is assigned to cluster 2. -/
theorem kmeansPredict_Pcex_lit : kmeansPredict Pcex (featVec litRow) = 2 := by
  unfold kmeansPredict
  rw [show List.range Pcex.n_clusters = [0, 1, 2] from rfl]
  have hmap : [0, 1, 2].map (fun c => sqDist (featVec litRow) (Pcex.centers c)) =
      [1, 100.25, 0] := by
    simp only [List.map_cons, List.map_nil, sqDist, Pcex, cexCenters, featVec, litRow,
      Fin.sum_univ_four]
    norm_num [Matrix.cons_val_zero, Matrix.cons_val_one, Matrix.head_cons,
      Matrix.cons_val_two, Matrix.cons_val_three, Matrix.vecTail, Matrix.vecHead]
  rw [hmap]
  norm_num [argminIdx, argminIdxAux]

/-- C7 counterexample: on a fitted scorer whose cluster assignment depends
on the lighting feature, raising `lighting_score` from 0 to 1 (all
incident features held at 0) raises the risk score from 0.4 to 0.8. -/
theorem predictRiskScore_lighting_counterexample :
    zeroRow.lighting_score < litRow.lighting_score ∧
    zeroRow.total_incidents = litRow.total_incidents ∧
    zeroRow.high_severity_count = litRow.high_severity_count ∧
    zeroRow.recent_incidents = litRow.recent_incidents ∧
    predictRiskScore Pcex zeroRow < predictRiskScore Pcex litRow := by
  refine ⟨by norm_num [zeroRow, litRow], rfl, rfl, rfl, ?_⟩
  have hdark : predictRiskScore Pcex zeroRow = 0.4 := by
    simp only [predictRiskScore, transform_Pcex, predictProba_Pcex,
      kmeansPredict_Pcex_dark]
    unfold clip
    norm_num [Pcex, zeroRow]
  have hlit : predictRiskScore Pcex litRow = 0.8 := by
    simp only [predictRiskScore, transform_Pcex, predictProba_Pcex,
      kmeansPredict_Pcex_lit]
    unfold clip
    norm_num [Pcex, litRow]
  rw [hdark, hlit]
  norm_num

/-- C7 amended: increasing `lighting_score` with the incident features
fixed never increases the risk score PROVIDED the fitted scorer's cluster
assignment and high-risk probability are unchanged between the two rows;
the explicit lighting-penalty term itself is non-increasing in
`lighting_score`. -/
theorem predictRiskScore_lighting_monotone (p : FittedParams) (r1 r2 : FeatureRow)
    (hl : r1.lighting_score ≤ r2.lighting_score)
    (hk : kmeansPredict p (transform p (featVec r1)) =
      kmeansPredict p (transform p (featVec r2)))
    (hp : predictProba p (transform p (featVec r1)) =
      predictProba p (transform p (featVec r2))) :
    predictRiskScore p r2 ≤ predictRiskScore p r1 := by
  simp only [predictRiskScore]
  rw [← hk, ← hp]
  unfold clip
  refine min_le_min (max_le_max ?_ le_rfl) le_rfl
  nlinarith

/-- Witness for the amended C7: with all centroids equal and zero logistic
coefficients, the lit row scores no higher than the dark row. -/
theorem predictRiskScore_lighting_monotone_witness :
    predictRiskScore P0 litRow ≤ predictRiskScore P0 zeroRow := by
  have hk : ∀ x : Fin 4 → ℝ, kmeansPredict P0 x = 0 := by
    intro x
    unfold kmeansPredict
    rw [show List.range P0.n_clusters = [0, 1, 2] from rfl]
    simp [argminIdx, argminIdxAux, lt_self_iff_false, P0]
  have hp : ∀ x : Fin 4 → ℝ, predictProba P0 x = sigmoid 0 := by
    intro x
    simp [predictProba, P0]
  exact predictRiskScore_lighting_monotone P0 zeroRow litRow
    (by norm_num [zeroRow, litRow]) (by rw [hk, hk]) (by rw [hp, hp])

/-! ## Claims about the route finder -/

/-- C4: both route searches error exactly when an endpoint id is absent
from the graph; with both endpoints present they return `None` exactly
when the endpoints are not connected, and any returned path runs from
start to end. -/
theorem route_search_endpoint_spec (G : Graph) (s t : ℕ) :
    (isErr (find_safest_route G s t) = true ↔
      (hasNode G s = false ∨ hasNode G t = false)) ∧
    (isErr (find_shortest_route G s t) = true ↔
      (hasNode G s = false ∨ hasNode G t = false)) ∧
    (hasNode G s = true → hasNode G t = true →
      (find_safest_route G s t = .ok none ↔ ¬ Reachable G s t) ∧
      (∀ p, find_safest_route G s t = .ok (some p) → IsPathBetween G s t p) ∧
      (find_shortest_route G s t = .ok none ↔ ¬ Reachable G s t) ∧
      (∀ p, find_shortest_route G s t = .ok (some p) → IsPathBetween G s t p)) := by
  have hnx : ∀ w : EdgeData → ℝ,
      (nx_shortest_path G w s t = none ↔ ¬ Reachable G s t) ∧
      (∀ p, nx_shortest_path G w s t = some p → IsPathBetween G s t p) := by
    intro w
    unfold nx_shortest_path
    split
    · rename_i h
      exact ⟨by simp [h], fun p hp => by
        cases hp
        exact Classical.choose_spec h⟩
    · rename_i h
      exact ⟨by simp [h], fun p hp => by cases hp⟩
  cases hs : hasNode G s with
  | false => simp [find_safest_route, find_shortest_route, hs, isErr]
  | true =>
    cases ht : hasNode G t with
    | false => simp [find_safest_route, find_shortest_route, hs, ht, isErr]
    | true =>
      refine ⟨by simp [find_safest_route, hs, ht, isErr],
        by simp [find_shortest_route, hs, ht, isErr], fun _ _ => ?_⟩
      have hsafe : find_safest_route G s t = .ok (nx_shortest_path G EdgeData.weight s t) := by
        simp [find_safest_route, hs, ht]
      have hshort : find_shortest_route G s t =
          .ok (nx_shortest_path G EdgeData.distance s t) := by
        simp [find_shortest_route, hs, ht]
      refine ⟨?_, ?_, ?_, ?_⟩
      · rw [hsafe]
        simpa using (hnx EdgeData.weight).1
      · intro p hp
        rw [hsafe] at hp
        exact (hnx EdgeData.weight).2 p (by simpa using hp)
      · rw [hshort]
        simpa using (hnx EdgeData.distance).1
      · intro p hp
        rw [hshort] at hp
        exact (hnx EdgeData.distance).2 p (by simpa using hp)

/-- A two-node graph with no edges. -/
noncomputable def G2 : Graph :=
  ⟨[(1, ⟨0, 0, 0⟩), (2, ⟨0, 0, 0⟩)], []⟩

/-- In the edgeless two-node graph, nodes 1 and 2 are disconnected. -/
theorem not_reachable_G2 : ¬ Reachable G2 1 2 := by
  rintro ⟨p, hne, hhead, hlast, hchain⟩
  cases p with
  | nil => exact hne rfl
  | cons a q =>
    cases q with
    | nil =>
      simp only [List.head?_cons, Option.some.injEq] at hhead
      simp only [List.getLast?_singleton, Option.some.injEq] at hlast
      omega
    | cons b r =>
      rw [List.chain'_cons] at hchain
      have : adj G2 a b := hchain.1
      simp [adj, getEdge, G2] at this

/-- Witness for C4: on the edgeless two-node graph, both endpoints are
present and the safest-route search returns `None`. -/
theorem route_search_endpoint_spec_witness :
    find_safest_route G2 1 2 = .ok none := by
  have h := ((route_search_endpoint_spec G2 1 2).2.2 (by rfl) (by rfl)).1
  exact h.mpr not_reachable_G2

/-- Summing a function over the consecutive pairs of a list equals the
index-wise sum over its segments. -/
theorem zip_tail_map_sum (g : ℕ × ℕ → ℝ) :
    ∀ p : List ℕ, ((p.zip p.tail).map g).sum =
      ∑ i ∈ Finset.range (p.length - 1), g (p.getD i 0, p.getD (i + 1) 0) := by
  intro p
  induction p with
  | nil => simp
  | cons a q ih =>
    cases q with
    | nil => simp
    | cons b r =>
      have hlen : (a :: b :: r : List ℕ).length - 1 = ((b :: r : List ℕ).length - 1) + 1 := by
        simp
      rw [show (a :: b :: r : List ℕ).tail = b :: r from rfl, List.zip_cons_cons,
        List.map_cons, List.sum_cons, hlen, Finset.sum_range_succ']
      have hq : ∀ i : ℕ,
          g ((a :: b :: r : List ℕ).getD (i + 1) 0, (a :: b :: r : List ℕ).getD (i + 1 + 1) 0) =
          g ((b :: r : List ℕ).getD i 0, (b :: r : List ℕ).getD (i + 1) 0) := by
        intro i
        rw [List.getD_cons_succ, List.getD_cons_succ]
      calc g (a, b) + ((((b :: r : List ℕ).zip (b :: r : List ℕ).tail).map g).sum)
          = ((((b :: r : List ℕ).zip (b :: r : List ℕ).tail).map g).sum) + g (a, b) := by ring
        _ = (∑ i ∈ Finset.range ((b :: r : List ℕ).length - 1),
              g ((b :: r : List ℕ).getD i 0, (b :: r : List ℕ).getD (i + 1) 0)) + g (a, b) := by
            rw [ih]
        _ = (∑ i ∈ Finset.range ((b :: r : List ℕ).length - 1),
              g ((a :: b :: r : List ℕ).getD (i + 1) 0,
                (a :: b :: r : List ℕ).getD (i + 1 + 1) 0)) +
            g ((a :: b :: r : List ℕ).getD 0 0, (a :: b :: r : List ℕ).getD (0 + 1) 0) := by
            simp [hq]
  -- the remaining step is closed by the shape of sum_range_succ'

/-- C5: `get_route_info` returns the all-zero record for `None` and for
paths of fewer than two nodes; for longer paths it returns the segment
count, the segment-wise sums of `distance` and `risk` (a pair without a
graph edge contributing 0), and their quotient as average risk. -/
theorem get_route_info_spec (G : Graph) (path : Option (List ℕ)) :
    (path = none → get_route_info G path = zeroRouteInfo) ∧
    (∀ p, path = some p → p.length < 2 → get_route_info G path = zeroRouteInfo) ∧
    (∀ p, path = some p → 2 ≤ p.length →
      (get_route_info G path).num_segments = p.length - 1 ∧
      (get_route_info G path).total_distance =
        ∑ i ∈ Finset.range (p.length - 1), segDistance G (p.getD i 0, p.getD (i + 1) 0) ∧
      (get_route_info G path).total_risk_score =
        ∑ i ∈ Finset.range (p.length - 1), segRisk G (p.getD i 0, p.getD (i + 1) 0) ∧
      (get_route_info G path).avg_risk_score =
        (get_route_info G path).total_risk_score / ((p.length - 1 : ℕ) : ℝ)) := by
  refine ⟨fun h => by rw [h]; rfl, fun p hp hlen => ?_, fun p hp hlen => ?_⟩
  · rw [hp]
    simp [get_route_info, hlen]
  · rw [hp]
    have hnot : ¬ p.length < 2 := by omega
    have hpos : 0 < p.length - 1 := by omega
    have hinfo : get_route_info G (some p) =
        ⟨((p.zip p.tail).map (segDistance G)).sum,
          ((p.zip p.tail).map (segRisk G)).sum,
          ((p.zip p.tail).map (segRisk G)).sum / ((p.length - 1 : ℕ) : ℝ),
          p.length - 1⟩ := by
      simp only [get_route_info, if_neg hnot, if_pos hpos]
    rw [hinfo]
    exact ⟨rfl, zip_tail_map_sum (segDistance G) p, zip_tail_map_sum (segRisk G) p, rfl⟩

/-- Witness for C5: a single-node path yields the all-zero statistics. -/
theorem get_route_info_spec_witness :
    get_route_info G2 (some [5]) = zeroRouteInfo :=
  (get_route_info_spec G2 (some [5])).2.1 [5] rfl (by norm_num)

/-- C10: `get_route_coordinates` does no up-front validation — it fails
with the lookup error exactly when the path holds an id absent from the
graph, and otherwise returns the stored (latitude, longitude) pairs in
path order. -/
theorem get_route_coordinates_spec (G : Graph) (path : List ℕ) :
    ((∃ id ∈ path, hasNode G id = false) ↔
      isErr (get_route_coordinates G path) = true) ∧
    ((∀ id ∈ path, hasNode G id = true) →
      get_route_coordinates G path =
        .ok (path.map fun id => (((getNode G id).getD ⟨0, 0, 0⟩).latitude,
          ((getNode G id).getD ⟨0, 0, 0⟩).longitude))) := by
  induction path with
  | nil => simp [get_route_coordinates, isErr]
  | cons a rest ih =>
    constructor
    · cases hn : getNode G a with
      | none =>
        simp only [get_route_coordinates, hn, isErr]
        constructor
        · intro _; trivial
        · intro _
          exact ⟨a, List.mem_cons_self a rest, by simp [hasNode, hn]⟩
      | some nd =>
        have hna : hasNode G a = true := by simp [hasNode, hn]
        cases hrec : get_route_coordinates G rest with
        | error e =>
          simp only [get_route_coordinates, hn, hrec, isErr]
          constructor
          · intro _; trivial
          · intro _
            have : ∃ id ∈ rest, hasNode G id = false := by
              rw [ih.1, hrec]; rfl
            obtain ⟨id, hid, hfid⟩ := this
            exact ⟨id, List.mem_cons_of_mem a hid, hfid⟩
        | ok cs =>
          simp only [get_route_coordinates, hn, hrec, isErr]
          constructor
          · rintro ⟨id, hid, hfid⟩
            rcases List.mem_cons.mp hid with h | h
            · subst h
              rw [hna] at hfid
              cases hfid
            · have : isErr (get_route_coordinates G rest) = true :=
                ih.1.mp ⟨id, h, hfid⟩
              rw [hrec] at this
              cases this
          · intro h
            cases h
    · intro hall
      have hna := hall a (List.mem_cons_self a rest)
      obtain ⟨nd, hn⟩ : ∃ nd, getNode G a = some nd := by
        rcases h : getNode G a with _ | nd
        · rw [hasNode, h] at hna
          cases hna
        · exact ⟨nd, rfl⟩
      have hrest := ih.2 fun id hid => hall id (List.mem_cons_of_mem a hid)
      simp only [get_route_coordinates, hn, hrest, List.map_cons]
      rfl

/-- Witness for C10: in the two-node demo graph, the path `[7]` raises the
lookup error, while the path `[1]` yields node 1's coordinates. -/
theorem get_route_coordinates_spec_witness :
    isErr (get_route_coordinates G2 [7]) = true ∧
    get_route_coordinates G2 [1] = .ok [(0, 0)] := by
  constructor
  · exact (get_route_coordinates_spec G2 [7]).1.mp
      ⟨7, List.mem_cons_self 7 [], by rfl⟩
  · have h := (get_route_coordinates_spec G2 [1]).2
      (by intro id hid; simp only [List.mem_singleton] at hid; subst hid; rfl)
    rw [h]
    rfl

end SafeRoute
